import Mathlib

/-!
# Verification of the sri4node-attachments batch upload/copy core

Shallow embedding of `src/js/sri4node-attachments.js`.  JavaScript strings are
modelled as lists of UTF-16 code units (`JStr := List Nat`); exceptions are
modelled with `Except`/`Option`; the S3 blob store is an association list from
keys to the stored `attachmentkey` metadata; every store interaction performed
by a handler is recorded in an event trace.  Network transports are modelled as
definite success/failure per call, matching the spec's non-goals ("it assumes
the blob-store client ... surfaces a definitive success/failure per call").
Concurrent phases (`Promise.all`) are modelled by running the already-started
operations in creation order; the claims settled here only concern the
sequential promotion policy and final states, which do not depend on the
interleaving.
-/

set_option autoImplicit false

namespace SriAttachments

/-- A JavaScript string, as its list of UTF-16 code units. -/
abbrev JStr := List Nat

/-- Value of a hex-digit code unit, as used by the ECMA-262 `Decode` algorithm
(`decodeURIComponent`). -/
def hexVal (u : Nat) : Option Nat :=
  if 48 ≤ u ∧ u ≤ 57 then some (u - 48)
  else if 65 ≤ u ∧ u ≤ 70 then some (u - 55)
  else if 97 ≤ u ∧ u ≤ 102 then some (u - 87)
  else none

/-- Read one escaped continuation byte `%XX` with `0x80 ≤ XX ≤ 0xBF`; returns
the 6 payload bits and the remaining input. -/
def readCont : JStr → Option (Nat × JStr)
  | 37 :: h1 :: h2 :: rest =>
    match hexVal h1, hexVal h2 with
    | some a, some b =>
      let byte := 16 * a + b
      if 128 ≤ byte ∧ byte ≤ 191 then some (byte - 128, rest) else none
    | _, _ => none
  | _ => none

/-- ECMA-262 `Decode` with an empty reserved set (`decodeURIComponent`),
fuel-structured so that it evaluates by `rfl`/`decide`.  `none` models a thrown
`URIError` (malformed escape, truncated or overlong UTF-8, surrogate or
out-of-range code point).  Each step consumes at least one code unit, so fuel
equal to the input length never runs out. -/
def decodeAux : Nat → JStr → Option JStr
  | _, [] => some []
  | 0, _ :: _ => none
  | fuel + 1, u :: rest =>
    if u = 37 then
      match rest with
      | h1 :: h2 :: rest2 =>
        match hexVal h1, hexVal h2 with
        | some a, some b =>
          let byte := 16 * a + b
          if byte < 128 then (decodeAux fuel rest2).map (byte :: ·)
          else if byte < 194 then none
          else if byte < 224 then
            match readCont rest2 with
            | some (b2, r3) =>
              let v := (byte - 192) * 64 + b2
              (decodeAux fuel r3).map (v :: ·)
            | none => none
          else if byte < 240 then
            match readCont rest2 with
            | some (b2, r3) =>
              match readCont r3 with
              | some (b3, r4) =>
                let v := (byte - 224) * 4096 + b2 * 64 + b3
                if v < 2048 ∨ (55296 ≤ v ∧ v ≤ 57343) then none
                else (decodeAux fuel r4).map (v :: ·)
              | none => none
            | none => none
          else if byte < 245 then
            match readCont rest2 with
            | some (b2, r3) =>
              match readCont r3 with
              | some (b3, r4) =>
                match readCont r4 with
                | some (b4, r5) =>
                  let v := (byte - 240) * 262144 + b2 * 4096 + b3 * 64 + b4
                  if v < 65536 ∨ 1114111 < v then none
                  else
                    (decodeAux fuel r5).map
                      (fun t => (55296 + (v - 65536) / 1024) :: (56320 + (v - 65536) % 1024) :: t)
                | none => none
              | none => none
            | none => none
          else none
        | _, _ => none
      | _ => none
    else (decodeAux fuel rest).map (u :: ·)

/-- `decodeURIComponent(s)`: `none` models a thrown `URIError`. -/
def decodeURIComponentJS (s : JStr) : Option JStr :=
  decodeAux s.length s

/-- `filename.replace("%", "_")`: JavaScript `String.prototype.replace` with a
string pattern replaces only the first occurrence. -/
def replaceFirstPct : JStr → JStr
  | [] => []
  | u :: rest => if u = 37 then 95 :: rest else u :: replaceFirstPct rest

/-- Membership in the regex character class `[a-zA-Z0-9\-!_.*'()]` of
`getSafeFilename`, per UTF-16 code unit (the source regex has no `u` flag). -/
def isSafeU (u : Nat) : Bool :=
  (48 ≤ u && u ≤ 57) || (65 ≤ u && u ≤ 90) || (97 ≤ u && u ≤ 122) ||
    u == 45 || u == 33 || u == 95 || u == 46 || u == 42 || u == 39 || u == 40 || u == 41

/-- `.replace(/[^a-zA-Z0-9\-!_.*'()]/g, "_")` on a single code unit. -/
def safeRepl (u : Nat) : Nat :=
  if isSafeU u then u else 95

/-- `getSafeFilename` from the source, with an attempt counter: decode; on
`URIError` replace the first `%` and recurse (the `catch` branch of the
source).  Returns the result together with the number of `decodeURIComponent`
attempts made.  `none` models non-termination / fuel exhaustion; it is proved
below that with fuel `count '%' + 1` it never occurs. -/
def getSafeFilenameAux : Nat → JStr → Option (JStr × Nat)
  | 0, _ => none
  | fuel + 1, s =>
    match decodeURIComponentJS s with
    | some d => some (d.map safeRepl, 1)
    | none =>
      match getSafeFilenameAux fuel (replaceFirstPct s) with
      | some (r, n) => some (r, n + 1)
      | none => none

/-- Run `getSafeFilename`, returning the cleaned name and the number of decode
attempts. -/
def getSafeFilenameRun (s : JStr) : Option (JStr × Nat) :=
  getSafeFilenameAux (s.count 37 + 1) s

/-- The cleaned filename computed by `getSafeFilename`. -/
def getSafeFilename (s : JStr) : JStr :=
  match getSafeFilenameRun s with
  | some (r, _) => r
  | none => []

/-- `k`-fold application of `replaceFirstPct` (iterated retry rewriting). -/
def iterRepl : Nat → JStr → JStr
  | 0, s => s
  | k + 1, s => iterRepl k (replaceFirstPct s)

/-! ## Bridging Lean `String` and the UTF-16 model

The handler-level model uses Lean `String` for keys and filenames; the
normalizer is applied through the code-unit model.  For the strings appearing
in these claims (ASCII names and S3 keys) a Lean `Char` corresponds to exactly
one UTF-16 code unit. -/

def strToUnits (s : String) : JStr :=
  s.toList.map Char.toNat

def unitsToStr (u : JStr) : String :=
  String.mk (u.map Char.ofNat)

/-- `getSafeFilename` lifted to Lean strings. -/
def safeStr (s : String) : String :=
  unitsToStr (getSafeFilename (strToUnits s))

/-! ## Data model

`Item` is one entry of the JSON `body` manifest
(`TMultiPartSingleBodyForFileUploads`), with the extra fields the source
mutates onto it: `resource.key` (derived by `validateAndMessWithRequestData`)
and the `file` field, which in JavaScript holds a string before
`checkFileForBodyJson` runs and a file object afterwards
(`FileRef.name` / `FileRef.obj`). -/

/-- The file object built by the busboy `file` handler or by `copyAttachments`:
the (safe) filename and the temporary S3 key.  `hash`/`size`, which the source
copies from the store's metadata, play no role in the settled claims and are
omitted. -/
structure FileObj where
  filename : String
  tmpFileName : String
  deriving DecidableEq, Repr

/-- The JavaScript `file` field: a plain string before resolution, a file
object afterwards. -/
inductive FileRef
  | name (s : String)
  | obj (f : FileObj)
  deriving DecidableEq, Repr

structure Attachment where
  key : Option String
  name : Option String
  deriving DecidableEq, Repr

structure ResourceRef where
  href : Option String
  deriving DecidableEq, Repr

structure Item where
  file : Option FileRef
  fileHref : Option String
  attachment : Option Attachment
  resource : Option ResourceRef
  /-- `resource.key`, mutated onto the item by `validateAndMessWithRequestData`. -/
  resourceKey : Option String
  ignoreNotFound : Bool
  deriving DecidableEq, Repr

/-- JavaScript truthiness of a possibly-absent string (`undefined` and `""`
are falsy). -/
def isTruthyOptStr : Option String → Bool
  | none => false
  | some s => !(s == "")

/-- The S3 bucket: keys mapped to the stored `x-amz-meta-attachmentkey`
metadata value (`none` when the object was written without it, as
`handleFileUpload` does). -/
abbrev Store := List (String × Option String)

/-- One store operation performed by a handler, for the event trace. -/
inductive Ev
  | put (key : String)
  | copyOp (src : String) (dst : String)
  | del (keys : List String)
  | promoteOne (item : Item)
  | promoteAll (items : List Item)
  deriving DecidableEq, Repr

def Ev.isPut : Ev → Bool
  | .put _ => true
  | _ => false

def Ev.isDel : Ev → Bool
  | .del _ => true
  | _ => false

def Ev.isPromote : Ev → Bool
  | .promoteOne _ => true
  | .promoteAll _ => true
  | _ => false

/-- `true` when the trace contains no promotion side-effect invocation. -/
def noPromoteEvents (evs : List Ev) : Bool :=
  evs.all (fun e => !(Ev.isPromote e))

/-- Mutable context threaded through a batch: the bucket, the event trace, and
a counter used to model `uuidv4()` freshness (the handler takes the actual
uuid values as an oracle `uuids : Nat → String`). -/
structure St where
  store : Store
  events : List Ev
  ctr : Nat

/-- Error values thrown by the source, including the pathological ones:
`typeErrorNotFn` models a JavaScript `TypeError` raised by calling a
non-function (the `err(...)` call in `downloadFromS3`'s catch block, or
`security.checkPermissionOnResourceList` when `security` is `undefined`);
`num` models throwing a plain number (never actually thrown, but compared
against via `err === 404` in `handleFileDownload`);
`failedList` models `throw failed` (the accumulated error array). -/
inductive ErrCode
  | missingBody
  | missingJsonBodyAttachment
  | missingJsonAttachmentKey
  | missingJsonBodyResource
  | bodyIncomplete
  | missingFile
  | fileToCopyNotFound
  | fileAlreadyExists
  | downloadFailed
  deriving DecidableEq, Repr

inductive JsErr
  | sri (status : Nat) (code : ErrCode)
  | sriStatusOnly (status : Nat)
  | typeErrorNotFn
  | s3Error (msg : String)
  | jsError (msg : String)
  | securityForbidden
  | num (n : Nat)
  | failedList (errs : List String)
  deriving DecidableEq, Repr

/-- Plugin configuration relevant to the settled claims (defaults in the
source: `handleMultipleUploadsTogether = false`, `uploadInSequence = true`,
`checkFileExistence = true`). -/
structure PluginCfg where
  handleMultipleUploadsTogether : Bool
  uploadInSequence : Bool
  checkFileExistence : Bool
  deriving DecidableEq, Repr

/-- The `security` part of the configuration.  `securityDefined` is the
truthiness of `fullPluginConfig.security` itself (the default merged
configuration always supplies the object `{plugin: undefined, ...}`, which is
truthy); `plugin` is `fullPluginConfig.security.plugin`, modelled as a
decision oracle from the ability string and the resource list. -/
structure SecCfg where
  securityDefined : Bool
  plugin : Option (String → List String → Bool)
  abilityPrepend : String
  abilityAppend : String

/-- A promotion call (`handleTheFile` / `runAfterUpload`) receives either one
manifest entry or, with `handleMultipleUploadsTogether`, the whole array. -/
abbrev PromoteArg := Sum Item (List Item)

/-- The caller-supplied promotion side effect: `none` means success, `some e`
a thrown error (the payload is the opaque thrown value, kept as a message). -/
abbrev Promote := PromoteArg → Option String

/-! ## String helpers mirroring the JavaScript ones -/

/-- `href.split("/")`, accumulator-based so it evaluates by `rfl`. -/
def splitCharAux (ch : Char) : List Char → List Char → List (List Char)
  | [], cur => [cur.reverse]
  | c :: rest, cur =>
    if c == ch then cur.reverse :: splitCharAux ch rest []
    else splitCharAux ch rest (c :: cur)

def splitSlash (s : String) : List String :=
  (splitCharAux '/' s.toList []).map (fun l => String.mk l)

/-- `s.split(sub).pop()`: the suffix of `s` after the last (left-to-right,
non-overlapping) occurrence of `sub`; the whole string when `sub` does not
occur.  Fuel-structured on the input length. -/
def lastAfterSubAux (sub : List Char) : Nat → List Char → List Char → List Char
  | _, [], acc => acc.reverse
  | 0, s, acc => acc.reverse ++ s
  | fuel + 1, c :: rest, acc =>
    if sub.isPrefixOf (c :: rest) ∧ sub ≠ [] then
      lastAfterSubAux sub fuel ((c :: rest).drop sub.length) []
    else lastAfterSubAux sub fuel rest (c :: acc)

def strLastAfterSub (sub s : String) : String :=
  String.mk (lastAfterSubAux sub.toList s.toList.length s.toList [])

/-- `getS3FileName` for the copy case (`href` given): split on `/`, find the
`"attachments"` segment, and join its neighbours with `-`.  A JavaScript
out-of-range index yields `undefined`, which string interpolation renders as
`"undefined"`. -/
def s3NameFromHref (href : String) : String :=
  let spl := splitSlash href
  match spl.findIdx? (fun x => x == "attachments") with
  | some i =>
    (if i = 0 then "undefined" else spl.getD (i - 1) "undefined") ++ "-" ++
      spl.getD (i + 1) "undefined"
  | none => "undefined-undefined"

/-- Insertion into a JavaScript `Set` (first occurrence kept, insertion order
preserved). -/
def jsSetAdd (l : List String) (x : String) : List String :=
  if l.contains x then l else l ++ [x]

/-! ## Item accessors used by the source -/

def hrefStrOf (e : Item) : String :=
  match e.fileHref with
  | some h => h
  | none => "undefined"

def resourceHrefOf (e : Item) : String :=
  match e.resource with
  | some r =>
    match r.href with
    | some h => h
    | none => "undefined"
  | none => "undefined"

/-- `fileWithJson.attachment.key` (present and truthy after validation). -/
def incomingKey (e : Item) : Option String :=
  e.attachment.bind (fun a => a.key)

/-- `fileWithJson.file.filename`: reading `.filename` off a string or absent
value yields `undefined`. -/
def fileObjFilename (e : Item) : String :=
  match e.file with
  | some (.obj f) => f.filename
  | _ => "undefined"

/-- `fileWithJson.file.tmpFileName`. -/
def fileObjTmp (e : Item) : String :=
  match e.file with
  | some (.obj f) => f.tmpFileName
  | _ => "undefined"

/-- `getS3FileName` for the upload/rename/existence case:
`${file.resource.key}-${file.file.filename}`. -/
def permKeyOf (e : Item) : String :=
  (match e.resourceKey with
   | some k => k
   | none => "undefined") ++ "-" ++ fileObjFilename e

/-- `getTmpFilename`: `${uuidv4()}-${filename}.tmp`, with the uuid supplied by
the oracle. -/
def getTmpFilename (uuid : String) (filename : String) : String :=
  uuid ++ "-" ++ filename ++ ".tmp"

/-! ## Store operations -/

/-- `DeleteObjectsCommand`: removes the listed keys; absent keys are not an
error. -/
def storeDeleteMany (st : Store) (keys : List String) : Store :=
  st.filter (fun kv => !(keys.contains kv.1))

/-! ## Manifest validation (`validateAndMessWithRequestData`) -/

/-- A manifest entry lacking the `attachment` block (`!e.attachment`; any
object is truthy). -/
def missAtt (e : Item) : Bool :=
  !e.attachment.isSome

/-- A manifest entry lacking a truthy `attachment.key` (`!e.attachment.key`).
Unreachable when `attachment` itself is absent, since the first check throws
first. -/
def missKey (e : Item) : Bool :=
  match e.attachment with
  | some a => !(isTruthyOptStr a.key)
  | none => true

/-- A manifest entry failing `!att.resource || !att.resource.href`. -/
def badRes (e : Item) : Bool :=
  match e.resource with
  | some r => !(isTruthyOptStr r.href)
  | none => true

/-- The `bodyJson.forEach` part of `validateAndMessWithRequestData`: throws
`missing.json.body.resource` at the first offending entry, otherwise derives
`resource.key` as the segment after the last `/` of `resource.href`. -/
def deriveResourceKeys : List Item → Except JsErr (List Item)
  | [] => .ok []
  | e :: rest =>
    if badRes e then .error (.sri 409 .missingJsonBodyResource)
    else
      (deriveResourceKeys rest).map
        (fun l => { e with resourceKey := some ((splitSlash (resourceHrefOf e)).getLastD "") } :: l)

/-- `validateAndMessWithRequestData`: two whole-manifest `some` checks, then
the per-entry resource check with key derivation. -/
def validateAndMess (body : List Item) : Except JsErr (List Item) :=
  if body.any missAtt then .error (.sri 409 .missingJsonBodyAttachment)
  else if body.any missKey then .error (.sri 409 .missingJsonAttachmentKey)
  else deriveResourceKeys body

/-! ## The remaining per-phase functions of the upload/copy handlers -/

/-- The busboy `file` handler plus `uploadTmpFile` for every received part:
compute the safe filename, assign a fresh temporary key, and upload the bytes
to it (a `PutObjectCommand` without metadata).  Returns `attachmentsRcvd` and
the updated context.  The upload itself is modelled as succeeding; transport
faults during staging are outside the settled claims. -/
def stageParts (uuids : Nat → String) : List String → St → List FileObj × St
  | [], st => ([], st)
  | p :: rest, st =>
    let safe := safeStr p
    let tmp := getTmpFilename (uuids st.ctr) safe
    let st' : St :=
      { store := (tmp, none) :: st.store
        events := st.events ++ [.put tmp]
        ctr := st.ctr + 1 }
    let pr := stageParts uuids rest st'
    (⟨safe, tmp⟩ :: pr.1, pr.2)

/-- The `newBodyArray` mapping: replace truthy `file` strings and truthy
`attachment.name` by their safe forms. -/
def mapSafeNames (body : List Item) : List Item :=
  body.map (fun e =>
    let e1 :=
      match e.file with
      | some (.name s) => if s == "" then e else { e with file := some (.name (safeStr s)) }
      | _ => e
    match e1.attachment with
    | some a =>
      match a.name with
      | some nm =>
        if nm == "" then e1
        else { e1 with attachment := some { a with name := some (safeStr nm) } }
      | none => e1
    | none => e1)

/-- `checkBodyJsonForFile` applied to every received file: each received file
needs a manifest entry whose `file` field is (strictly) equal to its safe
filename; throws `body.incomplete` at the first file without one. -/
def checkBodyJsonForFiles (files : List FileObj) (body : List Item) : Except JsErr Unit :=
  match files.find?
      (fun f => !(body.any (fun e =>
        match e.file with
        | some (.name s) => s == f.filename
        | _ => false))) with
  | some _ => .error (.sri 409 .bodyIncomplete)
  | none => .ok ()

/-- `checkFileForBodyJson`: for entries with a `file` field and no `fileHref`,
replace the string by the matching received file object, or throw
`missing.file`.  A non-string `file` value never matches the `===` filename
comparison, so it also throws. -/
def checkFileForBodyJson (files : List FileObj) : List Item → Except JsErr (List Item)
  | [] => .ok []
  | e :: rest =>
    if e.file.isSome && !(isTruthyOptStr e.fileHref) then
      match e.file with
      | some (.name s) =>
        match files.find? (fun f => f.filename == s) with
        | some f => (checkFileForBodyJson files rest).map (fun l => { e with file := some (.obj f) } :: l)
        | none => .error (.sri 409 .missingFile)
      | _ => .error (.sri 409 .missingFile)
    else (checkFileForBodyJson files rest).map (fun l => e :: l)

/-- The conflict test of `checkExistence`:
`head && head.Metadata && head.Metadata.attachmentkey !== attachment.key`.
The SDK always materialises `Metadata` (possibly empty) for an existing
object, so the test reduces to existence plus strict inequality of the
optional stored key and the incoming key. -/
def conflictB (store : Store) (e : Item) : Bool :=
  match store.lookup (permKeyOf e) with
  | some stored => decide (stored ≠ incomingKey e)
  | none => false

/-- `checkExistence`: walk the entries (those with a `file` value, filtered at
the call site) and throw `file.already.exists` at the first conflict. -/
def checkExistenceModel (store : Store) : List Item → Except JsErr Unit
  | [] => .ok ()
  | e :: rest =>
    if conflictB store e then .error (.sri 409 .fileAlreadyExists)
    else checkExistenceModel store rest

/-- `checkSecurityForResources`: skip on an empty resource set; otherwise, if
`fullPluginConfig.security` is truthy, call
`security.checkPermissionOnResourceList` — a `TypeError` when no plugin is
configured, the plugin's decision otherwise. -/
def checkSecurityForResources (sec : SecCfg) (ability : String) (resources : List String) :
    Except JsErr Unit :=
  if resources.isEmpty then .ok ()
  else if sec.securityDefined then
    match sec.plugin with
    | none => .error .typeErrorNotFn
    | some p =>
      if p (sec.abilityPrepend ++ ability ++ sec.abilityAppend) resources then .ok ()
      else .error .securityForbidden
  else .ok ()

/-- `checkSecurity`: build the resource set from the body's `resource.href`
values (or the single resource path), then delegate — but only when
`fullPluginConfig.security.plugin` is truthy; reading `.plugin` off an
undefined `security` throws. -/
def checkSecurity (sec : SecCfg) (body : Option (List Item)) (single : String)
    (ability : String) : Except JsErr Bool :=
  let resources :=
    match body with
    | some items => items.foldl (fun l e => jsSetAdd l (resourceHrefOf e)) []
    | none => jsSetAdd [] single
  if sec.securityDefined then
    match sec.plugin with
    | some _ =>
      match checkSecurityForResources sec ability resources with
      | .ok _ => .ok true
      | .error e => .error e
    | none => .ok true
  else .error .typeErrorNotFn

/-! ## `copyAttachments` -/

/-- The first `toCopy.forEach`: assign each entry with a truthy `fileHref` a
fresh file object whose filename is `fileHref.split("/attachments/").pop()`
and whose temporary key is fresh.  Returns the mutated body and the advanced
uuid counter. -/
def assignCopyFiles (uuids : Nat → String) : Nat → List Item → List Item × Nat
  | ctr, [] => ([], ctr)
  | ctr, e :: rest =>
    if isTruthyOptStr e.fileHref then
      let fn := strLastAfterSub "/attachments/" (hrefStrOf e)
      let e' := { e with file := some (.obj ⟨fn, getTmpFilename (uuids ctr) fn⟩) }
      let pr := assignCopyFiles uuids (ctr + 1) rest
      (e' :: pr.1, pr.2)
    else
      let pr := assignCopyFiles uuids ctr rest
      (e :: pr.1, pr.2)

/-- The `toCopy.filter` over the `getFileMeta` results: keep entries whose
source object exists, drop missing ones marked `ignoreNotFound`, throw
`file.to.copy.not.found` otherwise. -/
def filterCopies (store : Store) : List Item → Except JsErr (List Item)
  | [] => .ok []
  | e :: rest =>
    match store.lookup (s3NameFromHref (hrefStrOf e)) with
    | some _ => (filterCopies store rest).map (fun l => e :: l)
    | none =>
      if e.ignoreNotFound then filterCopies store rest
      else .error (.sri 409 .fileToCopyNotFound)

/-- One staged server-side copy (`copyFile`): copy the source object to the
fresh temporary key, replacing its metadata with the target `attachmentkey`. -/
def stageCopy (st : St) (e : Item) : St :=
  { store := (fileObjTmp e, incomingKey e) :: st.store
    events := st.events ++ [.copyOp (s3NameFromHref (hrefStrOf e)) (fileObjTmp e)]
    ctr := st.ctr }

/-- `copyAttachments`.  Returns `(mutatedBody, filteredBody)` on success: the
upload route discards the return value and keeps using the mutated array,
while the copy route uses the filtered return value.  Error exits happen
before any staged copy is written. -/
def copyAttachmentsModel (sec : SecCfg) (uuids : Nat → String) (grc : String → String)
    (body : List Item) (st : St) : Except JsErr (List Item × List Item) × St :=
  let toCopy0 := body.filter (fun e => isTruthyOptStr e.fileHref)
  if toCopy0.isEmpty then (.ok (body, body), st)
  else
    let resources := toCopy0.foldl (fun l e => jsSetAdd l (grc (hrefStrOf e))) []
    let assigned := assignCopyFiles uuids st.ctr body
    let body1 := assigned.1
    let st1 : St := { st with ctr := assigned.2 }
    match checkSecurityForResources sec "read" resources with
    | .error e => (.error e, st1)
    | .ok _ =>
      let toCopy1 := body1.filter (fun e => isTruthyOptStr e.fileHref)
      match filterCopies st1.store toCopy1 with
      | .error e => (.error e, st1)
      | .ok survivors =>
        let st2 := survivors.foldl stageCopy st1
        let filteredBody := body1.filter (fun bj =>
          !(isTruthyOptStr bj.fileHref) ||
            survivors.any (fun tc => tc.fileHref == bj.fileHref))
        (.ok (body1, filteredBody), st2)

/-! ## Promotion orchestration -/

/-- The sequential branch (`uploadInSequence`): `for (const file of body) await
handleTheFile(file).catch(ex => failed.push(ex))` — one call at a time, in
manifest order, failures appended without short-circuiting. -/
def promoteSeq (promote : Promote) : List Item → List String × List Ev
  | [] => ([], [])
  | i :: rest =>
    let r := promote (.inl i)
    let pr := promoteSeq promote rest
    (match r with
     | none => pr.1
     | some e => e :: pr.1,
     .promoteOne i :: pr.2)

/-- The parallel branch: promises created in array order, joined by
`Promise.all`.  The shallow embedding runs the already-started calls in
creation order; completion interleaving is not modelled (no settled claim
depends on it). -/
def promotePar (promote : Promote) (items : List Item) : List String × List Ev :=
  promoteSeq promote items

/-- The grouped branch (`handleMultipleUploadsTogether`): one call on the whole
array. -/
def promoteGrouped (promote : Promote) (items : List Item) : List String × List Ev :=
  match promote (.inr items) with
  | none => ([], [.promoteAll items])
  | some e => ([e], [.promoteAll items])

/-- The promotion phase dispatch of both handlers. -/
def runPromotionPhase (cfg : PluginCfg) (promote : Promote) (items : List Item) :
    List String × List Ev :=
  if cfg.handleMultipleUploadsTogether = false then
    if cfg.uploadInSequence = true then promoteSeq promote items
    else promotePar promote items
  else promoteGrouped promote items

/-! ## Finalisation -/

/-- `renameFile` for every entry with a `file` value, joined by
`Promise.all`: copy the temporary object to the permanent key (carrying the
`attachmentkey` metadata), then delete the temporary key.  A copy of a missing
source rejects; the join reports the first error while the remaining started
renames still take effect. -/
def runRenames : List Item → St → Option JsErr × St
  | [], st => (none, st)
  | e :: rest, st =>
    match st.store.lookup (fileObjTmp e) with
    | some _ =>
      let st1 : St :=
        { store := (permKeyOf e, incomingKey e) :: st.store
          events := st.events ++ [.copyOp (fileObjTmp e) (permKeyOf e)]
          ctr := st.ctr }
      let st2 : St :=
        { store := storeDeleteMany st1.store [fileObjTmp e]
          events := st1.events ++ [.del [fileObjTmp e]]
          ctr := st1.ctr }
      runRenames rest st2
    | none =>
      let r := runRenames rest st
      (some (.s3Error "copy failed"), r.2)

/-- The per-entry success response: `{status: 200, href:
resource.href + "/attachments/" + attachment.key}`. -/
structure RespItem where
  status : Nat
  href : String
  deriving DecidableEq, Repr

def respOf (e : Item) : RespItem :=
  ⟨200, resourceHrefOf e ++ "/attachments/" ++
    (match incomingKey e with
     | some k => k
     | none => "undefined")⟩

/-- A finished batch: the thrown error or the response list, the final bucket
contents, and the trace of store/promotion operations. -/
structure Outcome where
  result : Except JsErr (List RespItem)
  store : Store
  events : List Ev

/-- The rollback/commit decision point shared by both routes, from `/// all
files are now uploaded into their TMP versions.` onwards.  `files` is
`attachmentsRcvd` (the multipart-received file objects — note: not the staged
copies), `resolved` the processed body array. -/
def finishBatch (promote : Promote) (cfg : PluginCfg) (sec : SecCfg)
    (files : List FileObj) (resolved : List Item) (st : St) : Outcome :=
  let pr := runPromotionPhase cfg promote resolved
  let failed := pr.1
  let st1 : St := { st with events := st.events ++ pr.2 }
  let secRes := checkSecurity sec (some resolved) "" "create"
  let secErr : Option JsErr :=
    match secRes with
    | .ok _ => none
    | .error e => some e
  if !failed.isEmpty || secErr.isSome then
    let filenames := (files.filter (fun f => !(f.tmpFileName == ""))).map (fun f => f.tmpFileName)
    let st2 : St :=
      if filenames.isEmpty then st1
      else
        { store := storeDeleteMany st1.store filenames
          events := st1.events ++ [.del filenames]
          ctr := st1.ctr }
    { result := .error (match secErr with
        | some e => e
        | none => .failedList failed)
      store := st2.store
      events := st2.events }
  else
    let rn := runRenames (resolved.filter (fun e => e.file.isSome)) st1
    match rn.1 with
    | some e => { result := .error e, store := rn.2.store, events := rn.2.events }
    | none =>
      { result := .ok (resolved.map respOf)
        store := rn.2.store
        events := rn.2.events }

/-- The `POST /resource/attachments` streaming handler
(`customRouteForUpload.streamingHandler`).  Busboy delivers the file parts
(staged immediately under fresh temporary keys) and the `body` field; then the
pipeline runs: parse/validate the manifest, map names to their safe forms,
match received files against manifest entries, stage server-side copies when a
`getResourceForCopy` callback is configured (its *return value is discarded* —
the route keeps the mutated, unfiltered array), resolve `file` fields, run the
optional existence check, promote, check security, and finally roll back or
commit.  Validation failures propagate out of the handler without any
cleanup. -/
def uploadHandler (cfg : PluginCfg) (sec : SecCfg) (promote : Promote)
    (uuids : Nat → String) (parts : List String) (bodyField : Option (List Item))
    (grc : Option (String → String)) (store0 : Store) : Outcome :=
  let staged := stageParts uuids parts { store := store0, events := [], ctr := 0 }
  let files := staged.1
  let st1 := staged.2
  match bodyField with
  | none => { result := .error (.sri 409 .missingBody), store := st1.store, events := st1.events }
  | some bodyArray =>
    match validateAndMess bodyArray with
    | .error e => { result := .error e, store := st1.store, events := st1.events }
    | .ok validated =>
      let newBody := mapSafeNames validated
      match checkBodyJsonForFiles files newBody with
      | .error e => { result := .error e, store := st1.store, events := st1.events }
      | .ok _ =>
        let copied :=
          match grc with
          | some g => copyAttachmentsModel sec uuids g newBody st1
          | none => (.ok (newBody, newBody), st1)
        let st2 := copied.2
        match copied.1 with
        | .error e => { result := .error e, store := st2.store, events := st2.events }
        | .ok mutatedAndFiltered =>
          match checkFileForBodyJson files mutatedAndFiltered.1 with
          | .error e => { result := .error e, store := st2.store, events := st2.events }
          | .ok resolved =>
            match (if cfg.checkFileExistence then
                checkExistenceModel st2.store (resolved.filter (fun e => e.file.isSome))
              else .ok ()) with
            | .error e => { result := .error e, store := st2.store, events := st2.events }
            | .ok _ => finishBatch promote cfg sec files resolved st2

/-- The `POST /resource/attachments/copy` handler
(`customRouteForUploadCopy.handler`).  No multipart parts: `attachmentsRcvd`
is the empty array for the whole request (so the rollback delete list is
always empty), the body comes from the request, and — unlike the upload
route — the *filtered* return value of `copyAttachments` is used. -/
def copyHandler (cfg : PluginCfg) (sec : SecCfg) (promote : Promote)
    (uuids : Nat → String) (bodyField : Option (List Item))
    (grc : Option (String → String)) (store0 : Store) : Outcome :=
  let st0 : St := { store := store0, events := [], ctr := 0 }
  match bodyField with
  | none => { result := .error (.sri 409 .missingBody), store := store0, events := [] }
  | some bodyJson =>
    match validateAndMess bodyJson with
    | .error e => { result := .error e, store := store0, events := [] }
    | .ok validated =>
      let copied :=
        match grc with
        | some g => copyAttachmentsModel sec uuids g validated st0
        | none => (.ok (validated, validated), st0)
      let st2 := copied.2
      match copied.1 with
      | .error e => { result := .error e, store := st2.store, events := st2.events }
      | .ok mutatedAndFiltered =>
        match checkFileForBodyJson [] mutatedAndFiltered.2 with
        | .error e => { result := .error e, store := st2.store, events := st2.events }
        | .ok resolved =>
          match (if cfg.checkFileExistence then
              checkExistenceModel st2.store (resolved.filter (fun e => e.file.isSome))
            else .ok ()) with
          | .error e => { result := .error e, store := st2.store, events := st2.events }
          | .ok _ => finishBatch promote cfg sec [] resolved st2

/-! ## Download (`downloadFromS3` / `handleFileDownload`)

`headFromS3` sends a `HeadObjectCommand`, whose promise rejects for an absent
key.  Inside `downloadFromS3` every failure — the head rejection, the
explicit `throw new Error("404 Not found")`, or a transport fault — lands in
the `catch (err)` block, whose first statement calls `err(...)`: `err` is the
caught error value, not a function, so the block itself throws a `TypeError`
before reaching its `throw new Error("500 internal server error")` line.
`handleFileDownload` then compares the caught value with the *number* `404`
(`err === 404`), which is false for every thrown object, so its retry branch
is unreachable and every failure maps to the 500 `download.failed` error. -/

/-- `downloadFromS3`, returning the thrown value.  The second component of the
pair counts head probes (one per invocation). -/
def downloadFromS3M (store : Store) (transportFault : Bool) (key : String) :
    Except JsErr Unit :=
  match store.lookup key with
  | some _ => if transportFault then .error .typeErrorNotFn else .ok ()
  | none => .error .typeErrorNotFn

/-- `handleFileDownload` with `isRetry = true`: probes the raw filename. -/
def handleFileDownloadRetryM (store : Store) (transportFault : Bool)
    (key filename : String) : Except JsErr Unit × Nat :=
  match downloadFromS3M store transportFault (key ++ "-" ++ filename) with
  | .ok _ => (.ok (), 1)
  | .error e =>
    if e == .num 404 then (.error (.sriStatusOnly 404), 1)
    else (.error (.sri 500 .downloadFailed), 1)

/-- `handleFileDownload` with `isRetry = false`: probes the safe filename and
would fall back once to the raw filename on a 404 — but the comparison
`err === 404` never holds (see above). -/
def handleFileDownloadM (store : Store) (transportFault : Bool)
    (key filename : String) : Except JsErr Unit × Nat :=
  let safe := safeStr filename
  match downloadFromS3M store transportFault (key ++ "-" ++ safe) with
  | .ok _ => (.ok (), 1)
  | .error e =>
    if e == .num 404 then
      if filename == safe then (.error (.sriStatusOnly 404), 1)
      else
        let r := handleFileDownloadRetryM store transportFault key filename
        (r.1, r.2 + 1)
    else (.error (.sri 500 .downloadFailed), 1)

/-! ## Concrete batch inputs used by the closed evaluations -/

/-- uuid oracle: the n-th fresh uuid. -/
def uuids0 (n : Nat) : String :=
  "u" ++ toString n

def cfg0 : PluginCfg :=
  { handleMultipleUploadsTogether := false, uploadInSequence := true, checkFileExistence := true }

/-- Default security configuration: `security = {plugin: undefined, ...}` —
the object is truthy, the plugin absent. -/
def secNoPlugin : SecCfg :=
  { securityDefined := true, plugin := none, abilityPrepend := "", abilityAppend := "" }

/-- A configured security plugin that allows every request. -/
def secAllowAll : SecCfg :=
  { securityDefined := true, plugin := some (fun _ _ => true),
    abilityPrepend := "", abilityAppend := "" }

/-- A manifest entry with a file but no `attachment` block. -/
def itemNoAttachment : Item :=
  { file := some (.name "a.png"), fileHref := none, attachment := none,
    resource := some ⟨some "/things/t1"⟩, resourceKey := none, ignoreNotFound := false }

/-- A manifest entry with an `attachment` block but no `resource` block. -/
def itemNoResource : Item :=
  { file := some (.name "b.png"), fileHref := none,
    attachment := some ⟨some "kb", none⟩, resource := none,
    resourceKey := none, ignoreNotFound := false }

/-- A well-formed direct-upload manifest entry for file `a.png` on
`/things/t1`. -/
def itemDirect : Item :=
  { file := some (.name "a.png"), fileHref := none,
    attachment := some ⟨some "k1", none⟩, resource := some ⟨some "/things/t1"⟩,
    resourceKey := none, ignoreNotFound := false }

/-- A well-formed copy manifest entry referencing
`/things/r1/attachments/pic.png`. -/
def itemCopy : Item :=
  { file := none, fileHref := some "/things/r1/attachments/pic.png",
    attachment := some ⟨some "k1", none⟩, resource := some ⟨some "/things/r1"⟩,
    resourceKey := none, ignoreNotFound := false }

/-- A promotion side effect that always fails. -/
def promoteFail : Promote :=
  fun _ => some "promotion failed"

/-- A promotion side effect that always succeeds. -/
def promoteOk : Promote :=
  fun _ => none

/-- C2/C4 failing batch: one received file `a.png`, manifest missing the
`attachment` block. -/
def outBadManifest : Outcome :=
  uploadHandler cfg0 secNoPlugin promoteOk uuids0 ["a.png"] (some [itemNoAttachment]) none []

/-- C1 failing batch: copy route, one copy entry whose source exists with the
same `attachmentkey`, allowed by security, promotion failing. -/
def outCopyRollback : Outcome :=
  copyHandler cfg0 secAllowAll promoteFail uuids0 (some [itemCopy])
    (some (fun _ => "/things/r1")) [("r1-pic.png", some "k1")]

/-- C7 witness batch: direct upload whose permanent key `t1-a.png` is already
held by a different attachment identity. -/
def outConflict : Outcome :=
  uploadHandler cfg0 secAllowAll promoteOk uuids0 ["a.png"] (some [itemDirect]) none
    [("t1-a.png", some "zzz")]

/-- C6 failing batch: copy route with the default security configuration
(no plugin). -/
def outCopyNoPlugin : Outcome :=
  copyHandler cfg0 secNoPlugin promoteOk uuids0 (some [itemCopy])
    (some (fun _ => "/things/r1")) [("r1-pic.png", some "k1")]

/-- `itemDirect` as it stands when `checkExistence` runs (resource key derived,
file resolved to the staged object). -/
def itemDirectResolved : Item :=
  { file := some (.obj ⟨"a.png", "u0-a.png.tmp"⟩), fileHref := none,
    attachment := some ⟨some "k1", none⟩, resource := some ⟨some "/things/t1"⟩,
    resourceKey := some "t1", ignoreNotFound := false }

theorem decodeAux_of_no_pct :
    ∀ (fuel : Nat) (s : JStr), s.length ≤ fuel → (∀ u ∈ s, u ≠ 37) →
      decodeAux fuel s = some s := by
  intro fuel
  induction fuel with
  | zero =>
    intro s hlen _
    have : s = [] := List.eq_nil_of_length_eq_zero (Nat.le_zero.mp hlen)
    subst this; rfl
  | succ n ih =>
    intro s hlen hno
    cases s with
    | nil => rfl
    | cons u rest =>
      have hu : u ≠ 37 := hno u (List.mem_cons_self u rest)
      have hrest : ∀ v ∈ rest, v ≠ 37 := fun v hv => hno v (List.mem_cons_of_mem u hv)
      have hlen' : rest.length ≤ n := by
        simpa [List.length_cons, Nat.succ_le_succ_iff] using hlen
      simp [decodeAux, hu, ih rest hlen' hrest]

theorem decodeURIComponentJS_of_no_pct (s : JStr) (h : ∀ u ∈ s, u ≠ 37) :
    decodeURIComponentJS s = some s :=
  decodeAux_of_no_pct s.length s (Nat.le_refl _) h

theorem mem_pct_of_decode_fail (s : JStr) (h : decodeURIComponentJS s = none) :
    37 ∈ s := by
  by_contra hmem
  have : decodeURIComponentJS s = some s :=
    decodeURIComponentJS_of_no_pct s (fun u hu => by rintro rfl; exact hmem hu)
  rw [this] at h
  exact Option.noConfusion h

theorem count_replaceFirstPct (s : JStr) (h : 37 ∈ s) :
    (replaceFirstPct s).count 37 + 1 = s.count 37 := by
  induction s with
  | nil => cases h
  | cons u rest ih =>
    by_cases hu : u = 37
    · subst hu
      simp [replaceFirstPct, List.count_cons]
    · have hmem : 37 ∈ rest := by
        cases h with
        | head => exact absurd rfl hu
        | tail _ h' => exact h'
      have h37 : ¬ ((37 : Nat) == u) = true := by
        simp [Ne.symm hu]
      have hih := ih hmem
      simp only [replaceFirstPct, if_neg hu, List.count_cons, h37, if_false]
      omega

theorem getSafeFilenameAux_total :
    ∀ (fuel : Nat) (s : JStr), s.count 37 < fuel →
      ∃ n d, decodeURIComponentJS (iterRepl n s) = some d ∧ n + 1 ≤ fuel ∧
        getSafeFilenameAux fuel s = some (d.map safeRepl, n + 1) := by
  intro fuel
  induction fuel with
  | zero => intro s h; exact absurd h (Nat.not_lt_zero _)
  | succ m ih =>
    intro s h
    cases hdec : decodeURIComponentJS s with
    | some d =>
      refine ⟨0, d, hdec, Nat.succ_le_succ (Nat.zero_le _), ?_⟩
      simp [getSafeFilenameAux, hdec]
    | none =>
      have hmem : 37 ∈ s := mem_pct_of_decode_fail s hdec
      have hcount : (replaceFirstPct s).count 37 < m := by
        have := count_replaceFirstPct s hmem
        omega
      obtain ⟨n, d, hd, hn, haux⟩ := ih (replaceFirstPct s) hcount
      refine ⟨n + 1, d, ?_, Nat.succ_le_succ hn, ?_⟩
      · simpa [iterRepl] using hd
      · simp [getSafeFilenameAux, hdec, haux]

theorem getSafeFilenameRun_spec (s : JStr) :
    ∃ n d, decodeURIComponentJS (iterRepl n s) = some d ∧ n + 1 ≤ s.count 37 + 1 ∧
      getSafeFilenameRun s = some (d.map safeRepl, n + 1) :=
  getSafeFilenameAux_total (s.count 37 + 1) s (Nat.lt_succ_self _)

theorem isSafeU_safeRepl (u : Nat) : isSafeU (safeRepl u) = true := by
  unfold safeRepl
  by_cases h : isSafeU u = true
  · rw [if_pos h]; exact h
  · rw [if_neg h]; decide

theorem safeRepl_fixed {u : Nat} (h : isSafeU u = true) : safeRepl u = u := by
  simp [safeRepl, h]

theorem ne_pct_of_isSafeU {u : Nat} (h : isSafeU u = true) : u ≠ 37 := by
  rintro rfl
  simp [isSafeU] at h

theorem getSafeFilename_units_safe (s : JStr) :
    ∀ u ∈ getSafeFilename s, isSafeU u = true := by
  obtain ⟨n, d, _, _, hrun⟩ := getSafeFilenameRun_spec s
  intro u hu
  rw [getSafeFilename, hrun] at hu
  obtain ⟨v, _, rfl⟩ := List.mem_map.mp hu
  exact isSafeU_safeRepl v

theorem map_safeRepl_of_safe {l : JStr} (h : ∀ u ∈ l, isSafeU u = true) :
    l.map safeRepl = l := by
  induction l with
  | nil => rfl
  | cons u rest ih =>
    have hu := h u (List.mem_cons_self u rest)
    have hr := ih (fun v hv => h v (List.mem_cons_of_mem u hv))
    simp [safeRepl_fixed hu, hr]

theorem getSafeFilename_eq_of_run {x r : JStr} {n : Nat}
    (h : getSafeFilenameRun x = some (r, n)) : getSafeFilename x = r := by
  unfold getSafeFilename
  rw [h]

/-- **C8** — The safe-name normalizer is idempotent
(`normalize (normalize x) = normalize x` for every input) and never raises:
the recursion always terminates with a value (the only exception inside it is
the `URIError` of `decodeURIComponent`, which the `catch` branch always
handles), witnessed by `getSafeFilenameRun` being `some` on every input,
including the empty string and strings consisting only of `%` characters. -/
theorem C8_normalizer_idempotent_never_raises (s : JStr) :
    (getSafeFilenameRun s).isSome = true ∧
    getSafeFilename (getSafeFilename s) = getSafeFilename s := by
  obtain ⟨n, d, _, _, hrun⟩ := getSafeFilenameRun_spec s
  refine ⟨by rw [hrun]; rfl, ?_⟩
  have hsafe := getSafeFilename_units_safe s
  have hno : ∀ u ∈ getSafeFilename s, u ≠ 37 :=
    fun u hu => ne_pct_of_isSafeU (hsafe u hu)
  have hdec2 := decodeURIComponentJS_of_no_pct (getSafeFilename s) hno
  have hcount : (getSafeFilename s).count 37 = 0 :=
    List.count_eq_zero.mpr (fun hmem => hno 37 hmem rfl)
  have hfix := map_safeRepl_of_safe hsafe
  have hrun2 : getSafeFilenameRun (getSafeFilename s) = some (getSafeFilename s, 1) := by
    unfold getSafeFilenameRun
    rw [hcount]
    simp [getSafeFilenameAux, hdec2, hfix]
  exact getSafeFilename_eq_of_run hrun2

/-- **C9** (counterexample) — The claim "at most two decode attempts are made
for any input" is false: on the input `"%z%z"` the normalizer makes three
decode attempts (`replace("%", "_")` only rewrites the first `%`, and the
catch branch recurses rather than retrying once). -/
theorem C9_counterexample :
    ¬ (∀ (s r : JStr) (n : Nat), getSafeFilenameRun s = some (r, n) → n ≤ 2) := by
  intro h
  have h3 := h [37, 122, 37, 122] [95, 122, 95, 122] 3 (by decide)
  exact absurd h3 (by decide)

/-- **C9** (amended) — The normalizer decodes percent-encoding; when decoding
fails with a `URIError` it replaces the first literal `%` character and
recursively re-decodes, so for an input with `k` literal `%` characters up to
`k + 1` decode attempts are made (not at most two); the attempt that succeeds
does so on the input with its first `n` percent signs replaced, and every code
unit of the decoded string outside `[A-Za-z0-9\-!_.*'()]` is replaced with
`_`. -/
theorem C9_amended_recursive_retry (s : JStr) :
    ∃ n d, decodeURIComponentJS (iterRepl n s) = some d ∧
      n + 1 ≤ s.count 37 + 1 ∧
      getSafeFilenameRun s = some (d.map safeRepl, n + 1) :=
  getSafeFilenameRun_spec s

/-! ## Validation lemmas (C10, C4) -/

theorem validate_err_missAtt {body : List Item} (h : body.any missAtt = true) :
    validateAndMess body = .error (.sri 409 .missingJsonBodyAttachment) := by
  simp [validateAndMess, h]

theorem validate_err_missKey {body : List Item} (h1 : body.any missAtt = false)
    (h2 : body.any missKey = true) :
    validateAndMess body = .error (.sri 409 .missingJsonAttachmentKey) := by
  simp [validateAndMess, h1, h2]

theorem deriveResourceKeys_err {body : List Item} (h : body.any badRes = true) :
    deriveResourceKeys body = .error (.sri 409 .missingJsonBodyResource) := by
  induction body with
  | nil => simp at h
  | cons e rest ih =>
    rw [List.any_cons] at h
    by_cases he : badRes e
    · simp [deriveResourceKeys, he]
    · have hrest : rest.any badRes = true := by
        cases Bool.or_eq_true_iff.mp h with
        | inl h' => exact absurd h' he
        | inr h' => exact h'
      simp [deriveResourceKeys, he, ih hrest, Except.map]

theorem validate_err_badRes {body : List Item} (h1 : body.any missAtt = false)
    (h2 : body.any missKey = false) (h3 : body.any badRes = true) :
    validateAndMess body = .error (.sri 409 .missingJsonBodyResource) := by
  simp [validateAndMess, h1, h2, deriveResourceKeys_err h3]

/-- **C10** — `validateAndMessWithRequestData` applies its three checks in
fixed precedence, each scanning the whole manifest before the next: first
`missing.json.body.attachment`, then `missing.json.attachment.key`, then
`missing.json.body.resource`.  In particular a manifest in which one
descriptor is missing the attachment block and a different one the resource
block always reports `missing.json.body.attachment` (witness). -/
theorem C10_validation_precedence (body : List Item) :
    (body.any missAtt = true →
      validateAndMess body = .error (.sri 409 .missingJsonBodyAttachment)) ∧
    (body.any missAtt = false → body.any missKey = true →
      validateAndMess body = .error (.sri 409 .missingJsonAttachmentKey)) ∧
    (body.any missAtt = false → body.any missKey = false → body.any badRes = true →
      validateAndMess body = .error (.sri 409 .missingJsonBodyResource)) :=
  ⟨validate_err_missAtt, validate_err_missKey, validate_err_badRes⟩

/-- Witness for C10: first descriptor missing `attachment`, second missing
`resource` — the reported error is `missing.json.body.attachment`. -/
theorem C10_witness :
    validateAndMess [itemNoAttachment, itemNoResource]
      = .error (.sri 409 .missingJsonBodyAttachment) :=
  (C10_validation_precedence [itemNoAttachment, itemNoResource]).1 (by decide)

/-! ## Sequential promotion (C5) -/

theorem promoteSeq_spec (promote : Promote) : ∀ items : List Item,
    (promoteSeq promote items).2 = items.map Ev.promoteOne ∧
    (promoteSeq promote items).1 = items.filterMap (fun i => promote (.inl i)) := by
  intro items
  induction items with
  | nil => exact ⟨rfl, rfl⟩
  | cons i rest ih =>
    constructor
    · simp [promoteSeq, ih.1]
    · cases hp : promote (.inl i) with
      | none => simp [promoteSeq, hp, ih.2]
      | some e => simp [promoteSeq, hp, ih.2]

/-- **C5** — Under the sequential promotion policy
(`handleMultipleUploadsTogether = false`, `uploadInSequence = true`) the
promotion side effect is invoked once per descriptor, one at a time in
manifest order (the loop `await`s each call before starting the next, so the
trace is exactly the manifest order with no overlap), and a later descriptor
is still promoted after an earlier failure: failures are appended to the
error list without short-circuiting the loop. -/
theorem C5_sequential_promotion (cfg : PluginCfg) (promote : Promote) (items : List Item)
    (h1 : cfg.handleMultipleUploadsTogether = false) (h2 : cfg.uploadInSequence = true) :
    (runPromotionPhase cfg promote items).2 = items.map Ev.promoteOne ∧
    (runPromotionPhase cfg promote items).1 = items.filterMap (fun i => promote (.inl i)) := by
  have hs := promoteSeq_spec promote items
  unfold runPromotionPhase
  rw [h1, h2]
  simpa using hs

/-- Witness for C5, with a promotion side effect that fails on every
descriptor: both descriptors are still invoked in order and both failures are
collected. -/
theorem C5_witness :
    (runPromotionPhase cfg0 promoteFail [itemDirect, itemCopy]).2
        = [itemDirect, itemCopy].map Ev.promoteOne ∧
    (runPromotionPhase cfg0 promoteFail [itemDirect, itemCopy]).1
        = [itemDirect, itemCopy].filterMap (fun i => promoteFail (.inl i)) :=
  C5_sequential_promotion cfg0 promoteFail [itemDirect, itemCopy] rfl rfl

/-! ## Closed evaluations settling the code-bug claims -/

/-- **C1** — The rollback contract is violated for staged server-side copies:
on the copy route, the rollback delete list is computed from `attachmentsRcvd`
(multipart-received files), which the copy handler leaves empty, so after the
promotion failure the batch throws the aggregated failure list but deletes
nothing — the staged copy's temporary key `u0-pic.png.tmp` is still in the
store and no delete was ever issued. -/
theorem C1_copy_rollback_misses_staged_copies :
    outCopyRollback.result = .error (.failedList ["promotion failed"]) ∧
    outCopyRollback.store.lookup "u0-pic.png.tmp" = some (some "k1") ∧
    outCopyRollback.events.any Ev.isDel = false :=
  ⟨rfl, rfl, rfl⟩

/-- **C2** — A completing code path that leaves an object behind at a
temporary key: a batch with one received file and a manifest missing the
`attachment` block stages the file, then raises the validation error straight
out of the handler — no rollback delete runs, and the temporary object
`u0-a.png.tmp` is still in the store when the batch completes. -/
theorem C2_validation_error_leaks_tmp :
    outBadManifest.result = .error (.sri 409 .missingJsonBodyAttachment) ∧
    outBadManifest.store.lookup "u0-a.png.tmp" = some none ∧
    outBadManifest.events.any Ev.isDel = false :=
  ⟨rfl, rfl, rfl⟩

/-- **C3** — The download fallback is dead code: for a request whose safe name
(`a_b`) differs from the raw name (`a b`) and whose object is absent under the
safe name, the handler performs exactly one probe and fails with the 500
`download.failed` error (never the 404, never the raw-name retry), because
`downloadFromS3`'s catch block throws a `TypeError` (it calls the caught error
value) and `handleFileDownload` compares that thrown object against the number
`404`.  This holds even when the object exists under the raw name, where the
claimed fallback would have succeeded. -/
theorem C3_download_retry_dead :
    handleFileDownloadM [] false "w1" "a b" = (.error (.sri 500 .downloadFailed), 1) ∧
    handleFileDownloadM [("w1-a b", none)] false "w1" "a b"
      = (.error (.sri 500 .downloadFailed), 1) :=
  ⟨rfl, rfl⟩

/-- **C6** — With the default configuration (`security = {plugin: undefined}`)
the main gate `checkSecurity` does skip the check, and an empty resource
scope is skipped too; but `copyAttachments` calls `checkSecurityForResources`
directly, which only tests the truthiness of `fullPluginConfig.security` (the
always-present default object) before invoking
`security.checkPermissionOnResourceList` — a `TypeError` when no plugin is
configured, which aborts the whole copy batch instead of skipping
authorization. -/
theorem C6_security_skip_bug :
    checkSecurity secNoPlugin (some [itemCopy]) "/x" "create" = .ok true ∧
    checkSecurityForResources secNoPlugin "read" [] = .ok () ∧
    checkSecurityForResources secNoPlugin "read" ["/things/r1"] = .error .typeErrorNotFn ∧
    outCopyNoPlugin.result = .error .typeErrorNotFn :=
  ⟨rfl, rfl, rfl, rfl⟩

/-! ## Staging before validation (C4) -/

theorem stageParts_allPut (uuids : Nat → String) :
    ∀ (parts : List String) (st : St), st.events.all Ev.isPut = true →
      ((stageParts uuids parts st).2).events.all Ev.isPut = true := by
  intro parts
  induction parts with
  | nil => intro st h; exact h
  | cons p rest ih =>
    intro st h
    apply ih
    simp [List.all_append, h, Ev.isPut]

/-- **C4** (counterexample) — The claim "fails ... before any write to the
blob store occurs" is false for batches that carry a file part: the staging
put of `a.png`'s temporary key is performed before the
`missing.json.body.attachment` error is raised. -/
theorem C4_counterexample :
    outBadManifest.result = .error (.sri 409 .missingJsonBodyAttachment) ∧
    outBadManifest.events.any Ev.isPut = true :=
  ⟨rfl, rfl⟩

/-- **C4** (amended) — For every upload batch whose manifest has a descriptor
missing the `attachment` block (resp. the `resource` block), the batch fails
with the corresponding validation error code before any write to a
*permanent* key occurs: the only store operations performed by such a batch
are the staging puts of the received parts' temporary keys (which the design
accepts may already be in flight when validation rejects the manifest). -/
theorem C4_validation_before_permanent_write (cfg : PluginCfg) (sec : SecCfg)
    (promote : Promote) (uuids : Nat → String) (parts : List String)
    (body : List Item) (grc : Option (String → String)) (store0 : Store) :
    (body.any missAtt = true →
      (uploadHandler cfg sec promote uuids parts (some body) grc store0).result
          = .error (.sri 409 .missingJsonBodyAttachment) ∧
      (uploadHandler cfg sec promote uuids parts (some body) grc store0).events.all
          Ev.isPut = true) ∧
    (body.any missAtt = false → body.any missKey = false → body.any badRes = true →
      (uploadHandler cfg sec promote uuids parts (some body) grc store0).result
          = .error (.sri 409 .missingJsonBodyResource) ∧
      (uploadHandler cfg sec promote uuids parts (some body) grc store0).events.all
          Ev.isPut = true) := by
  have hstage := stageParts_allPut uuids parts
    { store := store0, events := [], ctr := 0 } rfl
  constructor
  · intro h
    have hv := validate_err_missAtt h
    refine ⟨?_, ?_⟩ <;> simp [uploadHandler, hv, hstage]
  · intro h1 h2 h3
    have hv := validate_err_badRes h1 h2 h3
    refine ⟨?_, ?_⟩ <;> simp [uploadHandler, hv, hstage]

/-- Witness for C4 (amended): the concrete bad-manifest batch fails with
`missing.json.body.attachment` and its trace holds only staging puts. -/
theorem C4_witness :
    outBadManifest.result = .error (.sri 409 .missingJsonBodyAttachment) ∧
    outBadManifest.events.all Ev.isPut = true :=
  (C4_validation_before_permanent_write cfg0 secNoPlugin promoteOk uuids0
    ["a.png"] [itemNoAttachment] none []).1 (by decide)

/-! ## Error-shape lemmas: which errors each phase can throw (C7) -/

theorem deriveResourceKeys_error_shape :
    ∀ {body : List Item} {e : JsErr}, deriveResourceKeys body = .error e →
      e = .sri 409 .missingJsonBodyResource := by
  intro body
  induction body with
  | nil => intro e h; simp [deriveResourceKeys] at h
  | cons a rest ih =>
    intro e h
    unfold deriveResourceKeys at h
    by_cases hb : badRes a
    · rw [if_pos hb] at h
      exact (Except.error.inj h).symm
    · rw [if_neg hb] at h
      cases hr : deriveResourceKeys rest with
      | error e' =>
        rw [hr] at h
        simp [Except.map] at h
        rw [← h]
        exact ih hr
      | ok l =>
        rw [hr] at h
        simp [Except.map] at h

theorem validateAndMess_error_shape {body : List Item} {e : JsErr}
    (h : validateAndMess body = .error e) :
    e = .sri 409 .missingJsonBodyAttachment ∨ e = .sri 409 .missingJsonAttachmentKey ∨
      e = .sri 409 .missingJsonBodyResource := by
  unfold validateAndMess at h
  by_cases h1 : body.any missAtt = true
  · rw [if_pos h1] at h
    exact .inl (Except.error.inj h).symm
  · rw [if_neg h1] at h
    by_cases h2 : body.any missKey = true
    · rw [if_pos h2] at h
      exact .inr (.inl (Except.error.inj h).symm)
    · rw [if_neg h2] at h
      exact .inr (.inr (deriveResourceKeys_error_shape h))

theorem checkBodyJsonForFiles_error_shape {files : List FileObj} {body : List Item}
    {e : JsErr} (h : checkBodyJsonForFiles files body = .error e) :
    e = .sri 409 .bodyIncomplete := by
  unfold checkBodyJsonForFiles at h
  split at h
  · exact (Except.error.inj h).symm
  · exact Except.noConfusion h

theorem checkFileForBodyJson_error_shape {files : List FileObj} :
    ∀ {body : List Item} {e : JsErr}, checkFileForBodyJson files body = .error e →
      e = .sri 409 .missingFile := by
  intro body
  induction body with
  | nil => intro e h; simp [checkFileForBodyJson] at h
  | cons a rest ih =>
    intro e h
    unfold checkFileForBodyJson at h
    split at h
    · split at h
      · split at h
        · cases hr : checkFileForBodyJson files rest with
          | error e' =>
            rw [hr] at h
            simp [Except.map] at h
            rw [← h]
            exact ih hr
          | ok l =>
            rw [hr] at h
            simp [Except.map] at h
        · exact (Except.error.inj h).symm
      · exact (Except.error.inj h).symm
    · cases hr : checkFileForBodyJson files rest with
      | error e' =>
        rw [hr] at h
        simp [Except.map] at h
        rw [← h]
        exact ih hr
      | ok l =>
        rw [hr] at h
        simp [Except.map] at h

theorem filterCopies_error_shape {store : Store} :
    ∀ {body : List Item} {e : JsErr}, filterCopies store body = .error e →
      e = .sri 409 .fileToCopyNotFound := by
  intro body
  induction body with
  | nil => intro e h; simp [filterCopies] at h
  | cons a rest ih =>
    intro e h
    unfold filterCopies at h
    split at h
    · cases hr : filterCopies store rest with
      | error e' =>
        rw [hr] at h
        simp [Except.map] at h
        rw [← h]
        exact ih hr
      | ok l =>
        rw [hr] at h
        simp [Except.map] at h
    · split at h
      · exact ih h
      · exact (Except.error.inj h).symm

theorem checkSecurityForResources_error_shape {sec : SecCfg} {ability : String}
    {resources : List String} {e : JsErr}
    (h : checkSecurityForResources sec ability resources = .error e) :
    e = .typeErrorNotFn ∨ e = .securityForbidden := by
  unfold checkSecurityForResources at h
  split at h
  · exact Except.noConfusion h
  · split at h
    · split at h
      · exact .inl (Except.error.inj h).symm
      · split at h
        · exact Except.noConfusion h
        · exact .inr (Except.error.inj h).symm
    · exact Except.noConfusion h

theorem checkSecurity_error_shape {sec : SecCfg} {body : Option (List Item)}
    {single ability : String} {e : JsErr}
    (h : checkSecurity sec body single ability = .error e) :
    e = .typeErrorNotFn ∨ e = .securityForbidden := by
  unfold checkSecurity at h
  dsimp only at h
  split at h
  · split at h
    · split at h
      · exact Except.noConfusion h
      · rename_i e' heq
        cases Except.error.inj h
        exact checkSecurityForResources_error_shape heq
    · exact Except.noConfusion h
  · exact .inl (Except.error.inj h).symm

theorem copyAttachmentsModel_error_shape {sec : SecCfg} {uuids : Nat → String}
    {grc : String → String} {body : List Item} {st : St} {e : JsErr}
    (h : (copyAttachmentsModel sec uuids grc body st).1 = .error e) :
    e = .typeErrorNotFn ∨ e = .securityForbidden ∨ e = .sri 409 .fileToCopyNotFound := by
  unfold copyAttachmentsModel at h
  dsimp only at h
  split at h
  · exact Except.noConfusion h
  · split at h
    · rename_i e' heq
      dsimp only at h
      cases Except.error.inj h
      cases checkSecurityForResources_error_shape heq with
      | inl h' => exact .inl h'
      | inr h' => exact .inr (.inl h')
    · split at h
      · rename_i e' heq
        dsimp only at h
        cases Except.error.inj h
        exact .inr (.inr (filterCopies_error_shape heq))
      · exact Except.noConfusion h

theorem runRenames_error_shape :
    ∀ {items : List Item} {st : St} {e : JsErr}, (runRenames items st).1 = some e →
      e = .s3Error "copy failed" := by
  intro items
  induction items with
  | nil => intro st e h; simp [runRenames] at h
  | cons a rest ih =>
    intro st e h
    unfold runRenames at h
    split at h
    · exact ih h
    · exact (Option.some.inj h).symm

/-- `finishBatch` never throws an `SriError`-shaped error: rollback rethrows
the security error (a `TypeError` or the plugin's denial) or the aggregate
failure list, and commit failures surface as store errors. -/
theorem finishBatch_not_sri (promote : Promote) (cfg : PluginCfg) (sec : SecCfg)
    (files : List FileObj) (resolved : List Item) (st : St) (status : Nat)
    (code : ErrCode) :
    (finishBatch promote cfg sec files resolved st).result ≠ .error (.sri status code) := by
  intro h
  unfold finishBatch at h
  cases hsec : checkSecurity sec (some resolved) "" "create" with
  | ok b =>
    rw [hsec] at h
    dsimp only at h
    split at h
    · exact JsErr.noConfusion (Except.error.inj h)
    · split at h
      · rename_i e' heq
        dsimp only at h
        have hshape := runRenames_error_shape heq
        cases Except.error.inj h
        exact JsErr.noConfusion hshape
      · exact Except.noConfusion h
  | error e =>
    rw [hsec] at h
    dsimp only at h
    split at h
    · have hinj := Except.error.inj h
      cases checkSecurity_error_shape hsec with
      | inl h' => rw [h'] at hinj; exact JsErr.noConfusion hinj
      | inr h' => rw [h'] at hinj; exact JsErr.noConfusion hinj
    · split at h
      · rename_i e' heq
        dsimp only at h
        have hshape := runRenames_error_shape heq
        cases Except.error.inj h
        exact JsErr.noConfusion hshape
      · exact Except.noConfusion h

/-! ## Event-trace lemmas (C7) -/

theorem noPromote_append {l1 l2 : List Ev} :
    noPromoteEvents (l1 ++ l2) = (noPromoteEvents l1 && noPromoteEvents l2) := by
  simp [noPromoteEvents, List.all_append]

theorem stageParts_noPromote (uuids : Nat → String) :
    ∀ (parts : List String) (st : St), noPromoteEvents st.events = true →
      noPromoteEvents ((stageParts uuids parts st).2).events = true := by
  intro parts
  induction parts with
  | nil => intro st h; exact h
  | cons p rest ih =>
    intro st h
    apply ih
    rw [noPromote_append, h]
    rfl

theorem foldl_stageCopy_noPromote :
    ∀ (survivors : List Item) (st : St), noPromoteEvents st.events = true →
      noPromoteEvents ((survivors.foldl stageCopy st).events) = true := by
  intro survivors
  induction survivors with
  | nil => intro st h; exact h
  | cons a rest ih =>
    intro st h
    apply ih
    show noPromoteEvents (st.events ++ [.copyOp (s3NameFromHref (hrefStrOf a)) (fileObjTmp a)]) = true
    rw [noPromote_append, h]
    rfl

theorem copyAttachmentsModel_noPromote (sec : SecCfg) (uuids : Nat → String)
    (grc : String → String) (body : List Item) (st : St)
    (h : noPromoteEvents st.events = true) :
    noPromoteEvents ((copyAttachmentsModel sec uuids grc body st).2).events = true := by
  unfold copyAttachmentsModel
  dsimp only
  split
  · exact h
  · split
    · exact h
    · split
      · exact h
      · exact foldl_stageCopy_noPromote _ _ h

/-! ## C7: the existence check fails the batch before promotion -/

theorem checkExistenceModel_conflict {store : Store} :
    ∀ {items : List Item}, (∃ e ∈ items, conflictB store e = true) →
      checkExistenceModel store items = .error (.sri 409 .fileAlreadyExists) := by
  intro items
  induction items with
  | nil => rintro ⟨e, he, _⟩; cases he
  | cons a rest ih =>
    rintro ⟨e, he, hc⟩
    unfold checkExistenceModel
    by_cases ha : conflictB store a
    · rw [if_pos ha]
    · rw [if_neg ha]
      cases he with
      | head => exact absurd hc ha
      | tail _ h' => exact ih ⟨e, h', hc⟩

theorem uploadHandler_existsErr_noPromote (cfg : PluginCfg) (sec : SecCfg)
    (promote : Promote) (uuids : Nat → String) (parts : List String)
    (bodyField : Option (List Item)) (grc : Option (String → String)) (store0 : Store)
    (h : (uploadHandler cfg sec promote uuids parts bodyField grc store0).result
      = .error (.sri 409 .fileAlreadyExists)) :
    noPromoteEvents
      (uploadHandler cfg sec promote uuids parts bodyField grc store0).events = true := by
  have hstage : noPromoteEvents
      ((stageParts uuids parts { store := store0, events := [], ctr := 0 }).2).events = true :=
    stageParts_noPromote uuids parts _ rfl
  unfold uploadHandler at h ⊢
  cases bodyField with
  | none => exact hstage
  | some bodyArray =>
    dsimp only at h ⊢
    cases hval : validateAndMess bodyArray with
    | error e => exact hstage
    | ok validated =>
      rw [hval] at h
      dsimp only at h ⊢
      cases hbj : checkBodyJsonForFiles
          (stageParts uuids parts { store := store0, events := [], ctr := 0 }).1
          (mapSafeNames validated) with
      | error e => exact hstage
      | ok u =>
        rw [hbj] at h
        dsimp only at h ⊢
        cases grc with
        | none =>
          dsimp only at h ⊢
          cases hcf : checkFileForBodyJson
              (stageParts uuids parts { store := store0, events := [], ctr := 0 }).1
              (mapSafeNames validated) with
          | error e => exact hstage
          | ok resolved =>
            rw [hcf] at h
            dsimp only at h ⊢
            cases hex : (if cfg.checkFileExistence = true then
                checkExistenceModel
                  ((stageParts uuids parts { store := store0, events := [], ctr := 0 }).2).store
                  (resolved.filter (fun e => e.file.isSome))
              else Except.ok ()) with
            | error e => exact hstage
            | ok u2 =>
              rw [hex] at h
              dsimp only at h
              exact absurd h (finishBatch_not_sri promote cfg sec _ resolved _ 409 .fileAlreadyExists)
        | some g =>
          dsimp only at h ⊢
          have hcopyev : noPromoteEvents
              ((copyAttachmentsModel sec uuids g (mapSafeNames validated)
                (stageParts uuids parts { store := store0, events := [], ctr := 0 }).2).2).events
                = true :=
            copyAttachmentsModel_noPromote _ _ _ _ _ hstage
          cases hcp : (copyAttachmentsModel sec uuids g (mapSafeNames validated)
              (stageParts uuids parts { store := store0, events := [], ctr := 0 }).2).1 with
          | error e => exact hcopyev
          | ok mf =>
            rw [hcp] at h
            dsimp only at h ⊢
            cases hcf : checkFileForBodyJson
                (stageParts uuids parts { store := store0, events := [], ctr := 0 }).1 mf.1 with
            | error e => exact hcopyev
            | ok resolved =>
              rw [hcf] at h
              dsimp only at h ⊢
              cases hex : (if cfg.checkFileExistence = true then
                  checkExistenceModel
                    ((copyAttachmentsModel sec uuids g (mapSafeNames validated)
                      (stageParts uuids parts { store := store0, events := [], ctr := 0 }).2).2).store
                    (resolved.filter (fun e => e.file.isSome))
                else Except.ok ()) with
              | error e => exact hcopyev
              | ok u2 =>
                rw [hex] at h
                dsimp only at h
                exact absurd h
                  (finishBatch_not_sri promote cfg sec _ resolved _ 409 .fileAlreadyExists)

/-- **C7** — With `checkFileExistence` enabled: (1) whenever some checked
descriptor's permanent target key already holds an object whose stored
`attachmentkey` differs from the descriptor's incoming key, `checkExistence`
fails the whole batch with the 409 `file.already.exists` error; and (2) every
upload-handler run that ends with that error performed no promotion side
effect — the failure is raised before any promotion runs. -/
theorem C7_existence_conflict_blocks_promotion :
    (∀ (store : Store) (items : List Item),
      (∃ e ∈ items, conflictB store e = true) →
      checkExistenceModel store items = .error (.sri 409 .fileAlreadyExists)) ∧
    (∀ (cfg : PluginCfg) (sec : SecCfg) (promote : Promote) (uuids : Nat → String)
      (parts : List String) (bodyField : Option (List Item))
      (grc : Option (String → String)) (store0 : Store),
      (uploadHandler cfg sec promote uuids parts bodyField grc store0).result
          = .error (.sri 409 .fileAlreadyExists) →
      noPromoteEvents
        (uploadHandler cfg sec promote uuids parts bodyField grc store0).events = true) :=
  ⟨fun _ _ h => checkExistenceModel_conflict h,
   fun cfg sec promote uuids parts bodyField grc store0 h =>
     uploadHandler_existsErr_noPromote cfg sec promote uuids parts bodyField grc store0 h⟩

/-- Witness for C7: a conflicting stored identity (`zzz` vs incoming `k1`)
makes the existence check throw `file.already.exists`, and the concrete batch
ending in that error has a promotion-free trace. -/
theorem C7_witness :
    checkExistenceModel [("t1-a.png", some "zzz")] [itemDirectResolved]
        = .error (.sri 409 .fileAlreadyExists) ∧
    noPromoteEvents outConflict.events = true :=
  ⟨C7_existence_conflict_blocks_promotion.1 [("t1-a.png", some "zzz")] [itemDirectResolved]
      ⟨itemDirectResolved, List.mem_singleton.mpr rfl, by decide⟩,
   C7_existence_conflict_blocks_promotion.2 cfg0 secAllowAll promoteOk uuids0
      ["a.png"] (some [itemDirect]) none [("t1-a.png", some "zzz")] rfl⟩

end SriAttachments
